import Mathlib

/-!
Verification of the tech-weekly aggregation pipeline (`scripts/fetch_weekly.py`)
against its natural-language specification.

The Python source is shallowly embedded: pure helpers become Lean functions on
`String` / `List Char`; the SQLite seen-store becomes an association list keyed
by the normalized url; file I/O in the segment updater is modelled by passing
the document's line list in and out; exceptions become `Except String`;
network-dependent stages of the orchestrator (health check, fetch, extract) are
modelled as per-source environment inputs, while the loop logic, filtering,
statistics and alert threshold are translated from the code.
-/

/-! ## Text normalization (`norm_space`, fetch_weekly.py lines 46-47)

Python: `re.sub(r"\s+", " ", s or "").strip()` -/

/-- Characters matched by Python's whitespace class in regular expressions
(and stripped by `str.strip`) for unicode strings. -/
def isPySpace (c : Char) : Bool :=
  c == ' ' || c == '\t' || c == '\n' || c == '\r' || c == '\x0b' || c == '\x0c' ||
  c == '\x1c' || c == '\x1d' || c == '\x1e' || c == '\x1f' || c == '\x85' || c == '\xa0' ||
  c == '\u1680' || ('\u2000' ≤ c && c ≤ '\u200A') || c == '\u2028' || c == '\u2029' ||
  c == '\u202F' || c == '\u205F' || c == '\u3000'

/-- Replace every maximal whitespace run by a single space, as
`re.sub(r"\s+", " ", s)` does.  The Boolean flag records whether the previous
character belonged to a whitespace run (so only the first character of a run
emits the space). -/
def collapseWs : Bool → List Char → List Char
  | _, [] => []
  | prev, c :: rest =>
    if isPySpace c then
      if prev then collapseWs true rest else ' ' :: collapseWs true rest
    else c :: collapseWs false rest

/-- Python `str.strip()`: drop whitespace from both ends. -/
def pyStrip (cs : List Char) : List Char :=
  ((cs.dropWhile isPySpace).reverse.dropWhile isPySpace).reverse

/-- `norm_space` from fetch_weekly.py: collapse whitespace runs to single
spaces and trim the ends. -/
def norm_space (s : String) : String :=
  String.mk (pyStrip (collapseWs false s.toList))

/-! ## Python `str.startswith` -/

/-- `listStarts s p` is true when the list `s` has `p` as an initial segment;
this is the semantics of Python's `str.startswith` on the character lists. -/
def listStarts {α : Type} [DecidableEq α] : List α → List α → Bool
  | _, [] => true
  | [], _ :: _ => false
  | a :: s, b :: p => if a = b then listStarts s p else false

/-- Python `s.startswith(p)`. -/
def pyStartsWith (s p : String) : Bool :=
  listStarts s.toList p.toList

/-! ## Items

The Python code represents an item as the dict
`{title, url, source, summary}` (fetch_weekly.py line 37). -/

structure Item where
  title : String
  url : String
  source : String
  summary : String
deriving DecidableEq

/-! ## `urlparse(...).netloc` (the fragment of Python's `urllib.parse.urlparse`
used by `classify_item`) -/

/-- Characters allowed in a URL scheme (CPython's `scheme_chars`). -/
def isSchemeChar (c : Char) : Bool :=
  c.isAlpha || c.isDigit || c == '+' || c == '-' || c == '.'

/-- Strip a leading `scheme:` when the text before the first colon is a valid
scheme (nonempty, starts with an ASCII letter, all scheme characters),
following CPython's `urlsplit`. -/
def stripScheme (cs : List Char) : List Char :=
  match cs.span (fun c => c != ':') with
  | (pre, _ :: rest) =>
      if !pre.isEmpty && (pre.headD ' ').isAlpha && pre.all isSchemeChar then rest else cs
  | (_, []) => cs

/-- The netloc extends up to the first `/`, `?` or `#`. -/
def takeNetloc (cs : List Char) : List Char :=
  cs.takeWhile (fun c => c != '/' && c != '?' && c != '#')

/-- `urlparse(s).netloc`: after the optional scheme, a netloc is present only
behind a leading `//`. -/
def pyNetloc (s : String) : String :=
  match stripScheme s.toList with
  | '/' :: '/' :: rest => String.mk (takeNetloc rest)
  | _ => ""

/-! ## Classifier (fetch_weekly.py lines 273-311) -/

/-- `SECTION_MAP` in source (insertion) order. -/
def SECTION_MAP : List (String × String) :=
  [("github_trending", "开源项目"),
   ("https://git.news", "开源项目"),
   ("https://github.com", "阅读推荐"),
   ("ruanyf_weekly", "阅读推荐"),
   ("hn_weekly", "阅读推荐"),
   ("https://hn.aimaker.dev", "阅读推荐"),
   ("https://hn.buzzing.cc", "阅读推荐"),
   ("https://koala-oss.app", "趋势观察"),
   ("https://topsub.cc", "趋势观察"),
   ("https://morerss.com", "趋势观察"),
   ("https://x-daily.pages.dev", "趋势观察"),
   ("https://decohack.com", "趋势观察"),
   ("https://weekly.howie6879.com", "阅读推荐"),
   ("https://www.zhihu.com", "阅读推荐"),
   ("https://x.com", "趋势观察"),
   ("https://hellogithub.com", "开源项目"),
   ("https://open.itc.cn", "趋势观察"),
   ("https://www.github-zh.com", "趋势观察"),
   ("release_github", "新版本发布"),
   ("release_gitee", "新版本发布")]

def DEFAULT_SECTIONS : List String :=
  ["趋势观察", "开源项目", "新版本发布", "阅读推荐"]

/-- First-match association-list lookup; models both Python dict key lookup
(keys are unique) and the `SELECT ... WHERE url = ?` of the seen store. -/
def alist_lookup {β : Type} : List (String × β) → String → Option β
  | [], _ => none
  | (k, v) :: rest, key => if k = key then some v else alist_lookup rest key

/-- `classify_item` from fetch_weekly.py lines 300-311: exact dict lookup of
the source; else first key in table order that is a string prefix of the
origin (`https://` + netloc for sources starting with `http`, the raw source
string otherwise); else the fixed default section. -/
def classify_item (it : Item) : String :=
  let src := it.source
  match alist_lookup SECTION_MAP src with
  | some v => v
  | none =>
    let origin := if pyStartsWith src "http" then "https://" ++ pyNetloc src else src
    match SECTION_MAP.find? (fun kv => pyStartsWith origin kv.1) with
    | some kv => kv.2
    | none => "阅读推荐"

/-- Pick the entry with the longest key among those whose key is a prefix of
`origin` (first entry wins ties). -/
def longest_match (origin : String) (table : List (String × String)) : Option (String × String) :=
  (table.filter (fun kv => pyStartsWith origin kv.1)).foldl
    (fun best kv =>
      match best with
      | none => some kv
      | some b => if kv.1.length > b.1.length then some kv else some b)
    none

/-- The classifier as the specification words it (for comparison with the
code): exact match; else a longest-prefix match of the origin against the
lookup-table keys that are URL prefixes (keys starting with `http`); else the
default section. -/
def classify_spec (src : String) : String :=
  match alist_lookup SECTION_MAP src with
  | some v => v
  | none =>
    let origin := if pyStartsWith src "http" then "https://" ++ pyNetloc src else src
    let url_keys := SECTION_MAP.filter (fun kv => pyStartsWith kv.1 "http")
    match longest_match origin url_keys with
    | some kv => kv.2
    | none => "阅读推荐"

/-- The amended classifier specification: tier two matches the origin against
all lookup-table keys (not only URL-prefix ones), by longest prefix. -/
def classify_amended (src : String) : String :=
  match alist_lookup SECTION_MAP src with
  | some v => v
  | none =>
    let origin := if pyStartsWith src "http" then "https://" ++ pyNetloc src else src
    match longest_match origin SECTION_MAP with
    | some kv => kv.2
    | none => "阅读推荐"

/-! ## SHA-1 (`hashlib.sha1(...).hexdigest()` over the UTF-8 encoding)

The deduplicator keys items by `hashlib.sha1(norm_space(url).encode()).hexdigest()`
(fetch_weekly.py line 89).  SHA-1 is implemented here over `Nat` words reduced
modulo `2 ^ 32`. -/

/-- UTF-8 encoding of one character, as a list of byte values. -/
def utf8EncodeChar (c : Char) : List Nat :=
  let n := c.toNat
  if n < 128 then [n]
  else if n < 2048 then [192 + n / 64, 128 + n % 64]
  else if n < 65536 then [224 + n / 4096, 128 + (n / 64) % 64, 128 + n % 64]
  else [240 + n / 262144, 128 + (n / 4096) % 64, 128 + (n / 64) % 64, 128 + n % 64]

/-- UTF-8 bytes of a string (`str.encode()` in Python). -/
def utf8Bytes (s : String) : List Nat :=
  (s.toList.map utf8EncodeChar).flatten

/-- Left rotation of a 32-bit word. -/
def rotl32 (n x : Nat) : Nat :=
  ((x <<< n) ||| (x >>> (32 - n))) % 4294967296

/-- Big-endian bytes of a 64-bit length field. -/
def be64 (n : Nat) : List Nat :=
  [n / 72057594037927936 % 256, n / 281474976710656 % 256, n / 1099511627776 % 256,
   n / 4294967296 % 256, n / 16777216 % 256, n / 65536 % 256, n / 256 % 256, n % 256]

/-- SHA-1 message padding: append `0x80`, zero-fill to 56 mod 64, then the
bit length as 8 big-endian bytes. -/
def sha1pad (m : List Nat) : List Nat :=
  let L := m.length
  let z := (56 + 64 - (L + 1) % 64) % 64
  m ++ [128] ++ List.replicate z 0 ++ be64 (L * 8)

/-- Big-endian 32-bit words from a list of bytes. -/
def bytesToWords : List Nat → List Nat
  | b0 :: b1 :: b2 :: b3 :: rest => (((b0 * 256 + b1) * 256 + b2) * 256 + b3) :: bytesToWords rest
  | _ => []

/-- One step of the SHA-1 message-schedule extension; the list holds the words
produced so far, most recent first. -/
def sha1ExtendStep (rev : List Nat) : List Nat :=
  rotl32 1 (rev.getD 2 0 ^^^ rev.getD 7 0 ^^^ rev.getD 13 0 ^^^ rev.getD 15 0) :: rev

/-- Extend 16 schedule words to 80. -/
def sha1Schedule (ws : List Nat) : List Nat :=
  ((List.range 64).foldl (fun rev _ => sha1ExtendStep rev) ws.reverse).reverse

/-- Round function of SHA-1. -/
def sha1F (t b c d : Nat) : Nat :=
  if t < 20 then (b &&& c) ||| ((b ^^^ 4294967295) &&& d)
  else if t < 40 then b ^^^ c ^^^ d
  else if t < 60 then (b &&& c) ||| (b &&& d) ||| (c &&& d)
  else b ^^^ c ^^^ d

/-- Round constants of SHA-1. -/
def sha1K (t : Nat) : Nat :=
  if t < 20 then 1518500249
  else if t < 40 then 1859775393
  else if t < 60 then 2400959708
  else 3395469782

/-- One SHA-1 round on the five-word state. -/
def sha1Round (st : Nat × Nat × Nat × Nat × Nat) (tw : Nat × Nat) : Nat × Nat × Nat × Nat × Nat :=
  let (a, b, c, d, e) := st
  let temp := (rotl32 5 a + sha1F tw.1 b c d + e + sha1K tw.1 + tw.2) % 4294967296
  (temp, a, rotl32 30 b, c, d)

/-- Compress one 64-byte block into the running hash state. -/
def sha1Compress (h : Nat × Nat × Nat × Nat × Nat) (block : List Nat) : Nat × Nat × Nat × Nat × Nat :=
  let ws := sha1Schedule (bytesToWords block)
  let (h0, h1, h2, h3, h4) := h
  let (a, b, c, d, e) := ((List.range 80).zip ws).foldl sha1Round (h0, h1, h2, h3, h4)
  ((h0 + a) % 4294967296, (h1 + b) % 4294967296, (h2 + c) % 4294967296,
   (h3 + d) % 4294967296, (h4 + e) % 4294967296)

/-- Fold the compression function over the 64-byte blocks of a padded message. -/
def sha1Blocks (h : Nat × Nat × Nat × Nat × Nat) : List Nat → Nat × Nat × Nat × Nat × Nat
  | [] => h
  | b :: rest => sha1Blocks (sha1Compress h ((b :: rest).take 64)) ((b :: rest).drop 64)
termination_by bs => bs.length
decreasing_by
  simp only [List.length_drop, List.length_cons]
  omega

/-- Lowercase hex digit. -/
def hexDigit (n : Nat) : Char :=
  if n < 10 then Char.ofNat (48 + n) else Char.ofNat (87 + n)

/-- Eight lowercase hex digits of a 32-bit word, most significant first. -/
def hex32 (w : Nat) : List Char :=
  [hexDigit (w / 268435456 % 16), hexDigit (w / 16777216 % 16), hexDigit (w / 1048576 % 16),
   hexDigit (w / 65536 % 16), hexDigit (w / 4096 % 16), hexDigit (w / 256 % 16),
   hexDigit (w / 16 % 16), hexDigit (w % 16)]

/-- `hashlib.sha1(s.encode()).hexdigest()`. -/
def sha1hex (s : String) : String :=
  let (h0, h1, h2, h3, h4) :=
    sha1Blocks (1732584193, 4023233417, 2562383102, 271733878, 3285377520)
      (sha1pad (utf8Bytes s))
  String.mk (hex32 h0 ++ hex32 h1 ++ hex32 h2 ++ hex32 h3 ++ hex32 h4)

/-! ## Deduplicator (fetch_weekly.py lines 85-94) -/

/-- The content key used by `dedup`: the SHA-1 hex digest of the normalized
url (fetch_weekly.py line 89). -/
def contentKey (it : Item) : String :=
  sha1hex (norm_space it.url)

/-- The loop of `dedup`: `seen` is the set of keys met so far, `out` the
output accumulator. -/
def dedupGo (seen : List String) (out : List Item) : List Item → List Item
  | [] => out
  | it :: rest =>
    let key := contentKey it
    if key ∈ seen then dedupGo seen out rest
    else dedupGo (key :: seen) (out ++ [it]) rest

/-- `dedup` from fetch_weekly.py lines 85-94. -/
def dedup (items : List Item) : List Item :=
  dedupGo [] [] items

/-- First-occurrence-per-content-key as the specification words it: keep each
item whose key has not appeared before, drop later duplicates, preserve
order. -/
def first_occurrences : List Item → List Item
  | [] => []
  | it :: rest =>
    it :: first_occurrences (rest.filter (fun x => decide (contentKey x ≠ contentKey it)))
termination_by l => l.length
decreasing_by
  simp only [List.length_cons]
  exact Nat.lt_succ_of_le (List.length_filter_le _ _)

/-! ## Seen store (fetch_weekly.py lines 104-159)

The SQLite table `fetched (url PRIMARY KEY, title, source, first_seen,
times_seen)` is modelled as an association list from the normalized url to the
row contents; `INSERT ... ON CONFLICT` becomes a lookup followed by either an
in-place update or an append. -/

structure SeenRecord where
  title : String
  source : String
  first_seen : String
  times_seen : Nat
deriving DecidableEq

abbrev Store : Type := List (String × SeenRecord)

/-- `has_seen` (fetch_weekly.py lines 122-125). -/
def has_seen (store : Store) (url : String) : Bool :=
  (alist_lookup store (norm_space url)).isSome

/-- `mark_seen` (fetch_weekly.py lines 128-140): insert a fresh row with
`times_seen = 1`, or on conflict only increment `times_seen`. -/
def mark_seen (store : Store) (it : Item) (seen_time : String) : Store :=
  let url_norm := norm_space it.url
  let title := norm_space it.title
  let source := norm_space it.source
  match alist_lookup store url_norm with
  | some _ =>
      store.map (fun kv =>
        if kv.1 = url_norm then (kv.1, { kv.2 with times_seen := kv.2.times_seen + 1 }) else kv)
  | none =>
      store ++ [(url_norm, { title := title, source := source, first_seen := seen_time, times_seen := 1 })]

/-- Insert-or-replace on an association list (used by the overwrite mode). -/
def alist_upsert {β : Type} (l : List (String × β)) (key : String) (v : β) : List (String × β) :=
  if (alist_lookup l key).isSome then
    l.map (fun kv => if kv.1 = key then (key, v) else kv)
  else l ++ [(key, v)]

/-- `mark_seen_overwrite` (fetch_weekly.py lines 143-159): insert a fresh row
or unconditionally replace title, source and first_seen and reset
`times_seen` to 1. -/
def mark_seen_overwrite (store : Store) (it : Item) (seen_time : String) : Store :=
  alist_upsert store (norm_space it.url)
    { title := norm_space it.title, source := norm_space it.source,
      first_seen := seen_time, times_seen := 1 }

/-! ## Renderer (fetch_weekly.py lines 314-348) -/

/-- Bracket escaping applied to titles before rendering a link
(`title.replace("[", "【").replace("]", "】")`). -/
def escape_brackets (s : String) : String :=
  String.mk (s.toList.map (fun c => if c == '[' then '【' else if c == ']' then '】' else c))

/-- One rendered bullet line, as in `build_markdown` and `format_item_line`. -/
def item_bullet_line (it : Item) : String :=
  "- [" ++ escape_brackets it.title ++ "](" ++ it.url ++ ")" ++
    (if it.summary != "" then " — " ++ it.summary else "")

/-- The lines of one section of the weekly document: a heading, then up to 20
bullets (or the placeholder when the section is empty), then a blank line.
The grouping loop of `build_markdown` puts into section `sec` exactly the
items classified to `sec`, in input order. -/
def section_lines (items : List Item) (sec : String) : List String :=
  let sec_items := (items.filter (fun it => classify_item it == sec)).take 20
  ("## " ++ sec) ::
    (if sec_items.isEmpty then ["- 暂无"]
     else sec_items.map item_bullet_line) ++ [""]

/-- `build_markdown` (fetch_weekly.py lines 314-348): front matter followed by
the four fixed sections. -/
def build_markdown (items : List Item) (title : String) (date_str : String) (draft : Bool) : String :=
  let highlights := (items.take 5).map Item.title
  let summary := "本期精选：" ++ String.intercalate "、" highlights
  let fm : List String :=
    ["---",
     "title: \"" ++ title ++ "\"",
     "date: " ++ date_str,
     "draft: " ++ (if draft then "true" else "false"),
     "tags: [\"周报\",\"开源\",\"科技\"]",
     "categories: [\"Weekly\"]",
     "summary: \"" ++ summary ++ "\"",
     "---",
     ""]
  String.intercalate "\n" (fm ++ (DEFAULT_SECTIONS.map (section_lines items)).flatten)

/-! ## Segment updater (fetch_weekly.py lines 937-951)

`update_markdown_segment` reads the file, splits it into lines, assigns the
computed replacement to the Python slice `lines[start_line - 1 : end_line]`
and writes the joined lines back; it is modelled on the document's line
list.  Python slice indices are arbitrary integers, clamped to the list
bounds. -/

/-- `format_item_line` (fetch_weekly.py lines 937-941). -/
def format_item_line (it : Item) : String :=
  "- [" ++ escape_brackets it.title ++ "](" ++ it.url ++ ")" ++
    (if it.summary != "" then " — " ++ it.summary else "")

/-- Normalization of one Python slice index for a list of length `n`. -/
def pySliceIdx (n : Nat) (i : Int) : Nat :=
  if i < 0 then ((n : Int) + i).toNat else min i.toNat n

/-- Python slice assignment `xs[a : b] = repl`. -/
def pySliceAssign {α : Type} (xs : List α) (a b : Int) (repl : List α) : List α :=
  let lo := pySliceIdx xs.length a
  let hi := max lo (pySliceIdx xs.length b)
  xs.take lo ++ repl ++ xs.drop hi

/-- The replacement lines: one rendered line per item, truncated to
`max 1 (end_line - start_line + 1)` items and padded with the placeholder up
to the range length. -/
def segment_new_lines (items : List Item) (start_line end_line : Int) : List String :=
  let base := (items.take (max 1 (end_line - start_line + 1)).toNat).map format_item_line
  base ++ List.replicate ((end_line - start_line + 1).toNat - base.length) "- 暂无"

/-- `update_markdown_segment` (fetch_weekly.py lines 943-951) on the line
list of the addressed document. -/
def update_markdown_segment (doc : List String) (start_line end_line : Int) (items : List Item) : List String :=
  pySliceAssign doc (start_line - 1) end_line (segment_new_lines items start_line end_line)

/-! ## Run statistics (fetch_weekly.py lines 356-377)

The wall-clock fields (`duration`, `started_at`, `finished_at`) and the
enrichment counter `items_total` are not referenced by any verified claim and
are omitted. -/

/-- One per-source run record (`Stats.sources[url]`). -/
structure SourceRun where
  ok : Bool
  count : Nat
  error : String
deriving DecidableEq

structure Stats where
  sources : List (String × SourceRun)
  failures : Nat
deriving DecidableEq

/-- `Stats.start_source`: create (or reset) the entry for the url. -/
def Stats.start_source (st : Stats) (url : String) : Stats :=
  { st with sources := alist_upsert st.sources url { ok := false, count := 0, error := "" } }

/-- `Stats.finish_source`: overwrite the entry's fields and count a failure
when `ok` is false. -/
def Stats.finish_source (st : Stats) (url : String) (ok : Bool) (count : Nat) (err : String) : Stats :=
  { sources := alist_upsert st.sources url { ok := ok, count := count, error := err },
    failures := if ok then st.failures else st.failures + 1 }

/-! ## Run orchestrator (fetch_weekly.py lines 517-552)

The network-facing stages are modelled as per-source environment inputs: the
result of `health_check` (which never raises), the result of
`fetch_with_retries` (the page text, or the re-raised error), and the
extractor's result on that text (the item list, or a raised error).  The
`try`/`except` of the loop body becomes `Except String`; sleeping and the
raw-html archive do not affect any claim and are omitted. -/

structure SourceEnv where
  url : String
  health : Bool × String
  fetched : Except String String
  parsed : String → Except String (List Item)

/-- The stages of the loop body that can raise: fetch, extract, truncate to
`max_per_source`, and the seen filter (`skip_check` bypasses it). -/
def source_attempt (env : SourceEnv) (max_per_source : Nat) (store : Store) (skip_check : Bool) :
    Except String (List Item) := do
  let html ← env.fetched
  let items ← env.parsed html
  let items := items.take max_per_source
  if skip_check then
    pure items
  else
    pure (items.filter (fun it => !(has_seen store it.url)))

/-- One iteration of the source loop: start the stats record, optionally stop
on a failed health check, then run the fallible stages, recording a failure
and carrying the accumulator unchanged on error. -/
def run_step (hc skip : Bool) (mps : Nat) (store : Store) (acc : Stats × List Item)
    (env : SourceEnv) : Stats × List Item :=
  let stats1 := acc.1.start_source env.url
  if hc && !env.health.1 then
    (stats1.finish_source env.url false 0 env.health.2, acc.2)
  else
    match source_attempt env mps store skip with
    | .error e => (stats1.finish_source env.url false 0 e, acc.2)
    | .ok fresh => (stats1.finish_source env.url true fresh.length "", acc.2 ++ fresh)

/-- `run` (fetch_weekly.py lines 517-552): process every source in order and
return the deduplicated accumulated items with the statistics. -/
def run (hc skip : Bool) (mps : Nat) (store : Store) (envs : List SourceEnv) :
    List Item × Stats :=
  let (stats, all_items) := envs.foldl (run_step hc skip mps store) (⟨[], 0⟩, [])
  (dedup all_items, stats)

/-- The record that one source's processing leaves in the statistics. -/
def env_outcome (hc skip : Bool) (mps : Nat) (store : Store) (env : SourceEnv) : SourceRun :=
  if hc && !env.health.1 then { ok := false, count := 0, error := env.health.2 }
  else
    match source_attempt env mps store skip with
    | .error e => { ok := false, count := 0, error := e }
    | .ok fresh => { ok := true, count := fresh.length, error := "" }

/-- The items one source contributes to the accumulator. -/
def fresh_of (hc skip : Bool) (mps : Nat) (store : Store) (env : SourceEnv) : List Item :=
  if hc && !env.health.1 then []
  else
    match source_attempt env mps store skip with
    | .error _ => []
    | .ok fresh => fresh

/-! ## Configured sources and the alert threshold (fetch_weekly.py lines
247-271 and 836-838)

The per-source extractor functions attached in `SOURCES` are external
collaborators; the endpoint list itself is kept. -/

def SOURCES : List String :=
  ["https://github.com/ruanyf/weekly/issues",
   "https://github.com/trending",
   "https://hn.aimaker.dev/",
   "https://www.daemonology.net/hn-weekly/",
   "https://koala-oss.app/news/",
   "https://topsub.cc/",
   "https://git.news/",
   "https://github.com/howie6879/weekly",
   "https://github.com/tw93/weekly?tab=readme-ov-file",
   "https://github.com/ljinkai/weekly",
   "https://hn.buzzing.cc/",
   "https://morerss.com/zh",
   "https://x-daily.pages.dev/",
   "https://decohack.com/",
   "https://github.com/headllines/hackernews-monthly",
   "https://weekly.howie6879.com/",
   "https://www.zhihu.com/people/githubdaily",
   "https://github.com/GitHubDaily/GitHubDaily",
   "https://x.com/GitHub_Daily",
   "https://hellogithub.com/",
   "https://github.com/OpenGithubs/github-weekly-rank",
   "https://open.itc.cn/",
   "https://www.github-zh.com/top"]

/-- The payload of the source-failure alert webhook call. -/
structure AlertPayload where
  type : String
  count : Nat
  total_sources : Nat
deriving DecidableEq

/-- The alert decision at the end of `main`'s round (fetch_weekly.py lines
836-838): send the `source_failures` payload when
`stats.failures >= max(1, len(SOURCES) // 3)`. -/
def source_failures_alert (failures : Nat) : Option AlertPayload :=
  if max 1 (SOURCES.length / 3) ≤ failures then
    some { type := "source_failures", count := failures, total_sources := SOURCES.length }
  else none

/-- A source environment for the failure-isolation scenario: a healthy source
serves a page that parses to no items; an unhealthy one fails its health
check. -/
def scenario_env (u : String) (healthy : Bool) : SourceEnv :=
  { url := u,
    health := (healthy, if healthy then "ok" else "error: connection refused"),
    fetched := .ok "<html></html>",
    parsed := fun _ => .ok [] }

/-- The spec's failure-isolation scenario: the 23 configured sources with the
first 8 failing their health checks. -/
def scenario_envs : List SourceEnv :=
  (SOURCES.take 8).map (fun u => scenario_env u false) ++
    (SOURCES.drop 8).map (fun u => scenario_env u true)

/-! ## Helper lemmas: `listStarts` -/

theorem listStarts_nil {α : Type} [DecidableEq α] (s : List α) : listStarts s ([] : List α) = true := by
  cases s <;> rfl

theorem listStarts_total {α : Type} [DecidableEq α] :
    ∀ (s p₁ p₂ : List α), listStarts s p₁ = true → listStarts s p₂ = true →
      listStarts p₁ p₂ = true ∨ listStarts p₂ p₁ = true := by
  intro s
  induction s with
  | nil =>
    intro p₁ p₂ h₁ _
    cases p₁ with
    | nil => right; exact listStarts_nil _
    | cons b q => exact absurd h₁ (by simp [listStarts])
  | cons a as ih =>
    intro p₁ p₂ h₁ h₂
    cases p₁ with
    | nil => right; exact listStarts_nil _
    | cons b₁ q₁ =>
      cases p₂ with
      | nil => left; exact listStarts_nil _
      | cons b₂ q₂ =>
        simp only [listStarts] at h₁ h₂ ⊢
        by_cases e₁ : a = b₁
        · by_cases e₂ : a = b₂
          · subst e₁; subst e₂
            rw [if_pos rfl] at h₁ h₂
            rw [if_pos rfl, if_pos rfl]
            exact ih q₁ q₂ h₁ h₂
          · rw [if_neg e₂] at h₂; cases h₂
        · rw [if_neg e₁] at h₁; cases h₁

theorem pyStartsWith_total (s k₁ k₂ : String)
    (h₁ : pyStartsWith s k₁ = true) (h₂ : pyStartsWith s k₂ = true) :
    pyStartsWith k₁ k₂ = true ∨ pyStartsWith k₂ k₁ = true :=
  listStarts_total s.toList k₁.toList k₂.toList h₁ h₂

/-! ## Helper lemmas: the section table -/

/-- No key of `SECTION_MAP` is a proper prefix of another key. -/
theorem section_map_keys_incomparable :
    ∀ k₁ ∈ SECTION_MAP.map Prod.fst, ∀ k₂ ∈ SECTION_MAP.map Prod.fst,
      pyStartsWith k₂ k₁ = true → k₁ = k₂ := by decide

theorem section_map_keys_nodup : (SECTION_MAP.map Prod.fst).Nodup := by decide

/-- At most one key of the table can be a prefix of any given string. -/
theorem section_map_prefix_unique (s k₁ k₂ : String)
    (hk₁ : k₁ ∈ SECTION_MAP.map Prod.fst) (hk₂ : k₂ ∈ SECTION_MAP.map Prod.fst)
    (h₁ : pyStartsWith s k₁ = true) (h₂ : pyStartsWith s k₂ = true) : k₁ = k₂ := by
  rcases pyStartsWith_total s k₁ k₂ h₁ h₂ with h | h
  · exact (section_map_keys_incomparable k₂ hk₂ k₁ hk₁ h).symm
  · exact section_map_keys_incomparable k₁ hk₁ k₂ hk₂ h

/-- When at most one key matches, the first table-order prefix match is also
the longest prefix match. -/
theorem longest_match_eq_find (s : String) :
    ∀ t : List (String × String),
      (t.map Prod.fst).Nodup →
      (∀ k₁ ∈ t.map Prod.fst, ∀ k₂ ∈ t.map Prod.fst,
        pyStartsWith s k₁ = true → pyStartsWith s k₂ = true → k₁ = k₂) →
      longest_match s t = t.find? (fun kv => pyStartsWith s kv.1) := by
  intro t
  induction t with
  | nil => intro _ _; rfl
  | cons kv t ih =>
    intro hnd huni
    by_cases hm : pyStartsWith s kv.1 = true
    · have hfind : List.find? (fun kw => pyStartsWith s kw.1) (kv :: t) = some kv := by
        simp [List.find?, hm]
      rw [hfind]
      have hfil : t.filter (fun kw => pyStartsWith s kw.1) = [] := by
        rw [List.filter_eq_nil_iff]
        intro kw hkw hpw
        have hk : kw.1 = kv.1 := by
          refine huni kw.1 ?_ kv.1 ?_ hpw hm
          · exact List.mem_map_of_mem Prod.fst (List.mem_cons_of_mem kv hkw)
          · exact List.mem_map_of_mem Prod.fst (List.mem_cons_self kv t)
        have hout : kv.1 ∉ t.map Prod.fst := by
          have hthis := hnd
          rw [List.map_cons, List.nodup_cons] at hthis
          exact hthis.1
        exact hout (hk ▸ List.mem_map_of_mem Prod.fst hkw)
      unfold longest_match
      have hfc : List.filter (fun kw => pyStartsWith s kw.1) (kv :: t) = [kv] := by
        simp [List.filter_cons, hm, hfil]
      rw [hfc]
      rfl
    · have hfind : List.find? (fun kw => pyStartsWith s kw.1) (kv :: t) =
          List.find? (fun kw => pyStartsWith s kw.1) t := by
        simp [List.find?, hm]
      rw [hfind]
      have ht : longest_match s (kv :: t) = longest_match s t := by
        unfold longest_match
        have hfc : List.filter (fun kw => pyStartsWith s kw.1) (kv :: t) =
            List.filter (fun kw => pyStartsWith s kw.1) t := by
          simp [List.filter_cons, hm]
        rw [hfc]
      rw [ht]
      refine ih ?_ ?_
      · rw [List.map_cons, List.nodup_cons] at hnd
        exact hnd.2
      · intro k₁ hk₁ k₂ hk₂ hp₁ hp₂
        exact huni k₁ (List.mem_cons_of_mem _ hk₁) k₂ (List.mem_cons_of_mem _ hk₂) hp₁ hp₂

/-! ## Claim C1 -/

/-- C1 (counterexample): tier two of the code's classifier prefix-matches
against every lookup-table key, not only the keys that are URL prefixes.
For an item whose source is `github_trendingX` the code returns the section
of the non-URL key `github_trending`, while the specification's three-tier
resolution falls through to the default section. -/
theorem classify_prefix_tier_counterexample :
    classify_item { title := "", url := "", source := "github_trendingX", summary := "" } = "开源项目" ∧
    classify_spec "github_trendingX" = "阅读推荐" ∧
    ("开源项目" : String) ≠ "阅读推荐" := by decide

/-- C1 (amended): the classifier resolves in three tiers — exact match of the
source against the table; otherwise the longest-prefix (equivalently, for this
table, the first in table order, since at most one key can match) match of the
item's origin against all table keys, where the origin is `https://` plus the
netloc when the source starts with `http` and the raw source string otherwise;
otherwise the fixed default section.  Exact matches always win, and the result
is a pure function of `item.source`. -/
theorem classify_three_tier_amended :
    (∀ it : Item, classify_item it = classify_amended it.source) ∧
    (∀ (it : Item) (v : String), alist_lookup SECTION_MAP it.source = some v → classify_item it = v) ∧
    (∀ s k₁ k₂ : String, k₁ ∈ SECTION_MAP.map Prod.fst → k₂ ∈ SECTION_MAP.map Prod.fst →
      pyStartsWith s k₁ = true → pyStartsWith s k₂ = true → k₁ = k₂) := by
  refine ⟨?_, ?_, section_map_prefix_unique⟩
  · intro it
    simp only [classify_item, classify_amended]
    cases h : alist_lookup SECTION_MAP it.source with
    | some v => rfl
    | none =>
      rw [longest_match_eq_find _ SECTION_MAP section_map_keys_nodup
        (fun k₁ hk₁ k₂ hk₂ hp₁ hp₂ => section_map_prefix_unique _ k₁ k₂ hk₁ hk₂ hp₁ hp₂)]
  · intro it v h
    simp only [classify_item]
    rw [h]

/-- Witness for the amended C1 theorem at concrete inputs. -/
theorem classify_three_tier_amended_witness :
    classify_item { title := "", url := "", source := "https://git.news/trending", summary := "" } =
      classify_amended "https://git.news/trending" ∧
    classify_item { title := "", url := "", source := "github_trending", summary := "" } = "开源项目" :=
  ⟨classify_three_tier_amended.1
      { title := "", url := "", source := "https://git.news/trending", summary := "" },
   classify_three_tier_amended.2.1
      { title := "", url := "", source := "github_trending", summary := "" } "开源项目" (by decide)⟩

/-! ## Helper lemmas: association lists -/

theorem alist_lookup_append_right {β : Type} (l : List (String × β)) (k : String) (v : β)
    (h : alist_lookup l k = none) : alist_lookup (l ++ [(k, v)]) k = some v := by
  induction l with
  | nil => simp [alist_lookup]
  | cons kv rest ih =>
    obtain ⟨k₀, v₀⟩ := kv
    simp only [alist_lookup, List.cons_append] at h ⊢
    by_cases e : k₀ = k
    · rw [if_pos e] at h; cases h
    · rw [if_neg e] at h ⊢; exact ih h

theorem alist_lookup_append_ne {β : Type} (l : List (String × β)) (k key : String) (v : β)
    (h : key ≠ k) : alist_lookup (l ++ [(k, v)]) key = alist_lookup l key := by
  induction l with
  | nil =>
    simp only [List.nil_append, alist_lookup]
    rw [if_neg (fun e => h e.symm)]
  | cons kv rest ih =>
    obtain ⟨k₀, v₀⟩ := kv
    simp only [alist_lookup, List.cons_append]
    by_cases e : k₀ = key
    · rw [if_pos e, if_pos e]
    · rw [if_neg e, if_neg e]; exact ih

theorem alist_lookup_map_incr {β : Type} (l : List (String × β)) (k : String) (f : β → β) :
    alist_lookup (l.map (fun kv => if kv.1 = k then (kv.1, f kv.2) else kv)) k =
      (alist_lookup l k).map f := by
  induction l with
  | nil => rfl
  | cons kv rest ih =>
    obtain ⟨k₀, v₀⟩ := kv
    rw [List.map_cons]
    by_cases e : k₀ = k
    · have hhead : (if (k₀, v₀).1 = k then ((k₀, v₀).1, f (k₀, v₀).2) else (k₀, v₀)) =
          (k₀, f v₀) := by simp [e]
      rw [hhead]
      simp only [alist_lookup]
      rw [if_pos e, if_pos e]
      rfl
    · have hhead : (if (k₀, v₀).1 = k then ((k₀, v₀).1, f (k₀, v₀).2) else (k₀, v₀)) =
          (k₀, v₀) := by simp [e]
      rw [hhead]
      simp only [alist_lookup]
      rw [if_neg e, if_neg e]
      exact ih

theorem alist_lookup_map_set {β : Type} (l : List (String × β)) (k : String) (v : β)
    (h : (alist_lookup l k).isSome = true) :
    alist_lookup (l.map (fun kv => if kv.1 = k then (k, v) else kv)) k = some v := by
  induction l with
  | nil => simp [alist_lookup] at h
  | cons kv rest ih =>
    obtain ⟨k₀, v₀⟩ := kv
    rw [List.map_cons]
    by_cases e : k₀ = k
    · have hhead : (if (k₀, v₀).1 = k then (k, v) else (k₀, v₀)) =
          (k, v) := by simp [e]
      rw [hhead]
      simp only [alist_lookup]
      simp
    · have hhead : (if (k₀, v₀).1 = k then (k, v) else (k₀, v₀)) =
          (k₀, v₀) := by simp [e]
      rw [hhead]
      simp only [alist_lookup] at h ⊢
      rw [if_neg e] at h ⊢
      exact ih h

theorem alist_lookup_map_set_ne {β : Type} (l : List (String × β)) (k key : String) (v : β)
    (h : key ≠ k) :
    alist_lookup (l.map (fun kv => if kv.1 = k then (k, v) else kv)) key = alist_lookup l key := by
  induction l with
  | nil => rfl
  | cons kv rest ih =>
    obtain ⟨k₀, v₀⟩ := kv
    rw [List.map_cons]
    by_cases e : k₀ = k
    · have hhead : (if (k₀, v₀).1 = k then (k, v) else (k₀, v₀)) =
          (k, v) := by simp [e]
      rw [hhead]
      simp only [alist_lookup]
      rw [if_neg (fun e2 => h e2.symm), if_neg (fun e2 => h (e ▸ e2.symm))]
      exact ih
    · have hhead : (if (k₀, v₀).1 = k then (k, v) else (k₀, v₀)) =
          (k₀, v₀) := by simp [e]
      rw [hhead]
      simp only [alist_lookup]
      by_cases e2 : k₀ = key
      · rw [if_pos e2, if_pos e2]
      · rw [if_neg e2, if_neg e2]; exact ih

theorem alist_lookup_upsert_self {β : Type} (l : List (String × β)) (k : String) (v : β) :
    alist_lookup (alist_upsert l k v) k = some v := by
  unfold alist_upsert
  by_cases h : (alist_lookup l k).isSome = true
  · rw [if_pos h]; exact alist_lookup_map_set l k v h
  · rw [if_neg h]
    refine alist_lookup_append_right l k v ?_
    cases hl : alist_lookup l k with
    | none => rfl
    | some w => rw [hl] at h; simp at h

theorem alist_lookup_upsert_ne {β : Type} (l : List (String × β)) (k key : String) (v : β)
    (h : key ≠ k) : alist_lookup (alist_upsert l k v) key = alist_lookup l key := by
  unfold alist_upsert
  by_cases hs : (alist_lookup l k).isSome = true
  · rw [if_pos hs]; exact alist_lookup_map_set_ne l k key v h
  · rw [if_neg hs]; exact alist_lookup_append_ne l k key v h

/-! ## Claim C3 -/

/-- C3: observe-mode persistence.  The first `mark_seen` call for a url with
no record inserts a row with `times_seen = 1`; a second `mark_seen` call for
the same normalized url (from any item carrying it) yields `times_seen = 2`
while title, source and first_seen keep exactly the values stored by the
first call. -/
theorem mark_seen_observe_semantics (store : Store) (it₁ it₂ : Item) (t₁ t₂ : String)
    (hnew : alist_lookup store (norm_space it₁.url) = none)
    (hsame : norm_space it₂.url = norm_space it₁.url) :
    alist_lookup (mark_seen store it₁ t₁) (norm_space it₁.url) =
      some { title := norm_space it₁.title, source := norm_space it₁.source,
             first_seen := t₁, times_seen := 1 } ∧
    alist_lookup (mark_seen (mark_seen store it₁ t₁) it₂ t₂) (norm_space it₁.url) =
      some { title := norm_space it₁.title, source := norm_space it₁.source,
             first_seen := t₁, times_seen := 2 } := by
  have h₁ : alist_lookup (mark_seen store it₁ t₁) (norm_space it₁.url) =
      some { title := norm_space it₁.title, source := norm_space it₁.source,
             first_seen := t₁, times_seen := 1 } := by
    simp only [mark_seen]
    rw [hnew]
    exact alist_lookup_append_right store _ _ hnew
  refine ⟨h₁, ?_⟩
  conv_lhs => rw [mark_seen]
  rw [hsame, h₁]
  rw [alist_lookup_map_incr (mark_seen store it₁ t₁) (norm_space it₁.url)
    (fun r => { r with times_seen := r.times_seen + 1 })]
  rw [h₁]
  rfl

/-- Witness for C3: observing the same url twice from an empty store. -/
theorem mark_seen_observe_semantics_witness :
    alist_lookup
        (mark_seen [] { title := "T1", url := "http://u", source := "S1", summary := "" } "2024-01-01")
        (norm_space "http://u") =
      some { title := "T1", source := "S1", first_seen := "2024-01-01", times_seen := 1 } ∧
    alist_lookup
        (mark_seen
          (mark_seen [] { title := "T1", url := "http://u", source := "S1", summary := "" } "2024-01-01")
          { title := "T2", url := " http://u ", source := "S2", summary := "" } "2024-01-08")
        (norm_space "http://u") =
      some { title := "T1", source := "S1", first_seen := "2024-01-01", times_seen := 2 } := by
  have h := mark_seen_observe_semantics []
    { title := "T1", url := "http://u", source := "S1", summary := "" }
    { title := "T2", url := " http://u ", source := "S2", summary := "" }
    "2024-01-01" "2024-01-08" (by decide) (by decide)
  exact ⟨h.1, h.2⟩

/-! ## Claim C4 -/

/-- C4: overwrite-mode persistence.  `mark_seen_overwrite` stores, under the
normalized url, a record carrying the new title, source and first_seen with
`times_seen = 1` — replacing any existing record and inserting otherwise —
and leaves every other key untouched. -/
theorem mark_seen_overwrite_semantics (store : Store) (it : Item) (t : String) :
    alist_lookup (mark_seen_overwrite store it t) (norm_space it.url) =
      some { title := norm_space it.title, source := norm_space it.source,
             first_seen := t, times_seen := 1 } ∧
    ∀ k : String, k ≠ norm_space it.url →
      alist_lookup (mark_seen_overwrite store it t) k = alist_lookup store k := by
  constructor
  · exact alist_lookup_upsert_self store (norm_space it.url) _
  · intro k hk
    exact alist_lookup_upsert_ne store (norm_space it.url) k _ hk

/-- Witness for C4: overwriting an existing record resets `times_seen` to 1
and replaces title, source and first_seen; other keys are unchanged. -/
theorem mark_seen_overwrite_semantics_witness :
    alist_lookup
        (mark_seen_overwrite
          [("http://u", { title := "old", source := "oldsrc", first_seen := "2023-01-01", times_seen := 5 })]
          { title := "New", url := "http://u", source := "S2", summary := "" } "2024-06-01")
        (norm_space "http://u") =
      some { title := "New", source := "S2", first_seen := "2024-06-01", times_seen := 1 } ∧
    alist_lookup
        (mark_seen_overwrite
          [("http://u", { title := "old", source := "oldsrc", first_seen := "2023-01-01", times_seen := 5 })]
          { title := "New", url := "http://u", source := "S2", summary := "" } "2024-06-01")
        "http://other" =
      alist_lookup
        [("http://u", { title := "old", source := "oldsrc", first_seen := "2023-01-01", times_seen := 5 })]
        "http://other" := by
  have h := mark_seen_overwrite_semantics
    [("http://u", { title := "old", source := "oldsrc", first_seen := "2023-01-01", times_seen := 5 })]
    { title := "New", url := "http://u", source := "S2", summary := "" } "2024-06-01"
  exact ⟨h.1, h.2 "http://other" (by decide)⟩

/-! ## Claim C6 -/

/-- C6 (counterexample): neither persistence operation validates the url.
Passing `mark_seen` an item whose url is empty stores a record under the
empty-string key. -/
theorem mark_seen_empty_url_persisted :
    alist_lookup
        (mark_seen [] { title := "t", url := "", source := "s", summary := "" } "2024-01-01") "" =
      some { title := "t", source := "s", first_seen := "2024-01-01", times_seen := 1 } := by
  decide

/-- C6 (amended): the persistence operations store records only under the
normalized url of the item passed; hence, provided every item persisted has a
url with a non-whitespace character (nonempty normalized url), no stored
record ever has an empty key.  The operations themselves do not enforce
this. -/
theorem seen_store_keys_nonempty (store : Store) (it : Item) (t : String)
    (hstore : ∀ kv ∈ store, kv.1 ≠ "") (hurl : norm_space it.url ≠ "") :
    (∀ kv ∈ mark_seen store it t, kv.1 ≠ "") ∧
    (∀ kv ∈ mark_seen_overwrite store it t, kv.1 ≠ "") := by
  constructor
  · intro kv hkv
    simp only [mark_seen] at hkv
    cases h : alist_lookup store (norm_space it.url) with
    | some r =>
      rw [h] at hkv
      obtain ⟨a, ha, rfl⟩ := List.mem_map.mp hkv
      by_cases e : a.1 = norm_space it.url
      · rw [if_pos e]
        exact fun e2 => hurl (e ▸ e2)
      · rw [if_neg e]
        exact hstore a ha
    | none =>
      rw [h] at hkv
      rcases List.mem_append.mp hkv with hin | hone
      · exact hstore kv hin
      · rcases List.mem_singleton.mp hone with rfl
        exact hurl
  · intro kv hkv
    simp only [mark_seen_overwrite, alist_upsert] at hkv
    by_cases hs : (alist_lookup store (norm_space it.url)).isSome = true
    · rw [if_pos hs] at hkv
      obtain ⟨a, ha, rfl⟩ := List.mem_map.mp hkv
      by_cases e : a.1 = norm_space it.url
      · rw [if_pos e]
        exact hurl
      · rw [if_neg e]
        exact hstore a ha
    · rw [if_neg hs] at hkv
      rcases List.mem_append.mp hkv with hin | hone
      · exact hstore kv hin
      · rcases List.mem_singleton.mp hone with rfl
        exact hurl

/-- Witness for the amended C6 theorem on an empty store and a nonempty
url. -/
theorem seen_store_keys_nonempty_witness :
    (∀ kv ∈ mark_seen [] { title := "t", url := "http://u", source := "s", summary := "" } "2024-01-01",
      kv.1 ≠ "") ∧
    (∀ kv ∈ mark_seen_overwrite [] { title := "t", url := "http://u", source := "s", summary := "" } "2024-01-01",
      kv.1 ≠ "") :=
  seen_store_keys_nonempty [] { title := "t", url := "http://u", source := "s", summary := "" }
    "2024-01-01" (by intro kv h; cases h) (by decide)

/-! ## Claim C2 -/

/-- C2: `update_markdown_segment` does not reject a line range outside the
document's bounds.  On a five-line document with range 10-12 and no items,
Python's slice assignment clamps the indices and the call silently appends
three placeholder lines instead of failing. -/
theorem update_segment_out_of_bounds_modifies :
    update_markdown_segment ["line1", "line2", "line3", "line4", "line5"] 10 12 [] =
      ["line1", "line2", "line3", "line4", "line5", "- 暂无", "- 暂无", "- 暂无"] ∧
    update_markdown_segment ["line1", "line2", "line3", "line4", "line5"] 10 12 [] ≠
      ["line1", "line2", "line3", "line4", "line5"] := by
  decide

/-! ## Claim C5: helper lemmas for the deduplicator -/

/-- The dedup loop with an explicit seen set and no accumulator. -/
def first_occ_from (seen : List String) : List Item → List Item
  | [] => []
  | it :: rest =>
    if contentKey it ∈ seen then first_occ_from seen rest
    else it :: first_occ_from (contentKey it :: seen) rest

theorem dedupGo_append : ∀ (l : List Item) (seen : List String) (out : List Item),
    dedupGo seen out l = out ++ dedupGo seen [] l := by
  intro l
  induction l with
  | nil => intro seen out; simp [dedupGo]
  | cons it rest ih =>
    intro seen out
    simp only [dedupGo, List.nil_append]
    by_cases h : contentKey it ∈ seen
    · rw [if_pos h, if_pos h]
      exact ih seen out
    · rw [if_neg h, if_neg h]
      rw [ih (contentKey it :: seen) (out ++ [it]), ih (contentKey it :: seen) [it]]
      simp

theorem dedupGo_eq_first_occ_from : ∀ (l : List Item) (seen : List String),
    dedupGo seen [] l = first_occ_from seen l := by
  intro l
  induction l with
  | nil => intro seen; rfl
  | cons it rest ih =>
    intro seen
    simp only [dedupGo, first_occ_from, List.nil_append]
    by_cases h : contentKey it ∈ seen
    · rw [if_pos h, if_pos h]
      exact ih seen
    · rw [if_neg h, if_neg h]
      rw [dedupGo_append rest (contentKey it :: seen) [it], ih (contentKey it :: seen)]
      simp

theorem filter_not_mem_cons (rest : List Item) (key : String) (seen : List String) :
    rest.filter (fun x => !decide (contentKey x ∈ key :: seen)) =
      (rest.filter (fun x => !decide (contentKey x ∈ seen))).filter
        (fun x => decide (contentKey x ≠ key)) := by
  rw [List.filter_filter]
  apply List.filter_congr
  intro x _
  by_cases h1 : contentKey x = key
  · simp [List.mem_cons, h1]
  · by_cases h2 : contentKey x ∈ seen <;> simp [List.mem_cons, h1, h2]

theorem first_occ_from_filter : ∀ (l : List Item) (seen : List String),
    first_occ_from seen l =
      first_occurrences (l.filter (fun x => !decide (contentKey x ∈ seen))) := by
  intro l
  induction l with
  | nil => intro seen; simp only [first_occ_from, List.filter_nil, first_occurrences]
  | cons it rest ih =>
    intro seen
    simp only [first_occ_from, List.filter_cons]
    by_cases h : contentKey it ∈ seen
    · rw [if_pos h]
      have hb : (!decide (contentKey it ∈ seen)) = false := by simp [h]
      rw [hb, if_neg Bool.false_ne_true]
      exact ih seen
    · rw [if_neg h]
      have hb : (!decide (contentKey it ∈ seen)) = true := by simp [h]
      rw [hb, if_pos rfl]
      rw [ih (contentKey it :: seen), filter_not_mem_cons rest (contentKey it) seen]
      simp only [first_occurrences]

theorem dedup_eq_first_occurrences (l : List Item) : dedup l = first_occurrences l := by
  unfold dedup
  rw [dedupGo_eq_first_occ_from, first_occ_from_filter]
  have hf : l.filter (fun x => !decide (contentKey x ∈ ([] : List String))) = l := by
    apply List.filter_eq_self.mpr
    intro a _
    simp
  rw [hf]

theorem mem_of_mem_first_occurrences : ∀ (l : List Item) (x : Item),
    x ∈ first_occurrences l → x ∈ l := by
  intro l
  induction l using first_occurrences.induct with
  | case1 =>
    intro x h
    simp only [first_occurrences] at h
    cases h
  | case2 it rest ih =>
    intro x h
    simp only [first_occurrences] at h
    rcases List.mem_cons.mp h with rfl | h2
    · exact List.mem_cons_self _ _
    · exact List.mem_cons_of_mem _ (List.mem_filter.mp (ih x h2)).1

theorem first_occurrences_idem : ∀ l : List Item,
    first_occurrences (first_occurrences l) = first_occurrences l := by
  intro l
  induction l using first_occurrences.induct with
  | case1 => simp only [first_occurrences]
  | case2 it rest ih =>
    simp only [first_occurrences]
    have hself : (first_occurrences (rest.filter (fun x => decide (contentKey x ≠ contentKey it)))).filter
        (fun x => decide (contentKey x ≠ contentKey it)) =
        first_occurrences (rest.filter (fun x => decide (contentKey x ≠ contentKey it))) := by
      apply List.filter_eq_self.mpr
      intro a ha
      exact (List.mem_filter.mp (mem_of_mem_first_occurrences _ a ha)).2
    rw [hself, ih]

/-! ## Claim C5 -/

/-- C5: `dedup` keeps exactly the first occurrence of each content key (the
SHA-1 digest of the normalized url), drops all later duplicates and preserves
the relative order of the kept first occurrences — it equals the
first-occurrence function — and consequently it is idempotent.  As a Lean
function of the item list it is pure by construction. -/
theorem dedup_first_occurrence_idempotent (X : List Item) :
    dedup X = first_occurrences X ∧ dedup (dedup X) = dedup X := by
  refine ⟨dedup_eq_first_occurrences X, ?_⟩
  rw [dedup_eq_first_occurrences X, dedup_eq_first_occurrences (first_occurrences X)]
  exact first_occurrences_idem X

/-! ## Claim C8 -/

/-- C8: rendering is a pure function of its four inputs — two calls of
`build_markdown` with equal item list, title, date and draft flag produce
byte-identical document text.  The embedding makes every input explicit: the
source function reads no clock, randomness or other ambient state. -/
theorem build_markdown_deterministic (items₁ items₂ : List Item) (t₁ t₂ d₁ d₂ : String)
    (dr₁ dr₂ : Bool) (hi : items₁ = items₂) (ht : t₁ = t₂) (hd : d₁ = d₂) (hdr : dr₁ = dr₂) :
    build_markdown items₁ t₁ d₁ dr₁ = build_markdown items₂ t₂ d₂ dr₂ := by
  rw [hi, ht, hd, hdr]

/-- Witness for C8 at the spec's test inputs. -/
theorem build_markdown_deterministic_witness :
    build_markdown
        [{ title := "A", url := "https://github.com/trending/x", source := "github_trending", summary := "" }]
        "T" "2024-01-01" false =
      build_markdown
        [{ title := "A", url := "https://github.com/trending/x", source := "github_trending", summary := "" }]
        "T" "2024-01-01" false :=
  build_markdown_deterministic _ _ _ _ _ _ _ _ rfl rfl rfl rfl

/-! ## Claim C7 -/

/-- C7 (counterexample): with the 23 configured sources the code already
sends the alert at 7 failed sources, although 7 does not exceed one third of
23 (neither the exact third, since 3 * 7 = 21 <= 23, nor the integer third
23 / 3 = 7): the code's condition is at-least, not strict excess. -/
theorem alert_threshold_counterexample :
    source_failures_alert 7 = some { type := "source_failures", count := 7, total_sources := 23 } ∧
    ¬ 3 * 7 > SOURCES.length ∧ ¬ 7 > SOURCES.length / 3 := by decide

/-- C7 (amended): the source_failures alert carrying the failed-source count
is sent exactly when `failures >= max(1, len(SOURCES) // 3)`; in the spec's
scenario the run over the 23 configured sources with 8 failed health checks
completes with `stats.failures = 8`, and since `8 >= max(1, 23 // 3) = 7` the
alert with count 8 is sent. -/
theorem alert_threshold_amended :
    (∀ failures : Nat, (source_failures_alert failures).isSome = true ↔
      max 1 (SOURCES.length / 3) ≤ failures) ∧
    SOURCES.length = 23 ∧
    (run true false 20 [] scenario_envs).2.failures = 8 ∧
    source_failures_alert (run true false 20 [] scenario_envs).2.failures =
      some { type := "source_failures", count := 8, total_sources := 23 } := by
  refine ⟨?_, by decide, by decide, by decide⟩
  intro failures
  unfold source_failures_alert
  by_cases h : max 1 (SOURCES.length / 3) ≤ failures
  · rw [if_pos h]; simp [h]
  · rw [if_neg h]; simp [h]

/-! ## Claim C9: helper lemmas for the run loop -/

/-- Whether one source's processing is recorded as failed. -/
def env_fails (hc skip : Bool) (mps : Nat) (store : Store) (env : SourceEnv) : Bool :=
  !(env_outcome hc skip mps store env).ok

theorem run_step_eq (hc skip : Bool) (mps : Nat) (store : Store) (acc : Stats × List Item)
    (env : SourceEnv) :
    run_step hc skip mps store acc env =
      ((acc.1.start_source env.url).finish_source env.url
          (env_outcome hc skip mps store env).ok
          (env_outcome hc skip mps store env).count
          (env_outcome hc skip mps store env).error,
        acc.2 ++ fresh_of hc skip mps store env) := by
  unfold run_step env_outcome fresh_of
  by_cases h : (hc && !env.health.1) = true
  · rw [if_pos h, if_pos h, if_pos h]
    simp
  · rw [if_neg h, if_neg h, if_neg h]
    cases ha : source_attempt env mps store skip with
    | error e => simp
    | ok fresh => simp

theorem run_foldl_items (hc skip : Bool) (mps : Nat) (store : Store) :
    ∀ (envs : List SourceEnv) (st : Stats) (al : List Item),
      (envs.foldl (run_step hc skip mps store) (st, al)).2 =
        al ++ (envs.map (fresh_of hc skip mps store)).flatten := by
  intro envs
  induction envs with
  | nil => intro st al; simp
  | cons env rest ih =>
    intro st al
    rw [List.foldl_cons, run_step_eq]
    rw [ih]
    simp

theorem run_foldl_failures (hc skip : Bool) (mps : Nat) (store : Store) :
    ∀ (envs : List SourceEnv) (st : Stats) (al : List Item),
      (envs.foldl (run_step hc skip mps store) (st, al)).1.failures =
        st.failures + envs.countP (env_fails hc skip mps store) := by
  intro envs
  induction envs with
  | nil => intro st al; simp
  | cons env rest ih =>
    intro st al
    rw [List.foldl_cons, run_step_eq]
    rw [ih]
    by_cases h : (env_outcome hc skip mps store env).ok = true
    · simp [Stats.finish_source, Stats.start_source, env_fails, h, List.countP_cons]
    · simp only [Bool.not_eq_true] at h
      simp [Stats.finish_source, Stats.start_source, env_fails, h, List.countP_cons]
      omega

theorem run_foldl_lookup_of_not_mem (hc skip : Bool) (mps : Nat) (store : Store) :
    ∀ (envs : List SourceEnv) (st : Stats) (al : List Item) (u : String),
      u ∉ envs.map SourceEnv.url →
      alist_lookup ((envs.foldl (run_step hc skip mps store) (st, al)).1).sources u =
        alist_lookup st.sources u := by
  intro envs
  induction envs with
  | nil => intro st al u _; rfl
  | cons env rest ih =>
    intro st al u hu
    rw [List.map_cons, List.mem_cons] at hu
    push_neg at hu
    rw [List.foldl_cons, run_step_eq]
    rw [ih _ _ u hu.2]
    simp only [Stats.finish_source, Stats.start_source]
    rw [alist_lookup_upsert_ne _ _ _ _ hu.1, alist_lookup_upsert_ne _ _ _ _ hu.1]

theorem run_eq (hc skip : Bool) (mps : Nat) (store : Store) (envs : List SourceEnv) :
    run hc skip mps store envs =
      (dedup (envs.foldl (run_step hc skip mps store) (⟨[], 0⟩, [])).2,
       (envs.foldl (run_step hc skip mps store) (⟨[], 0⟩, [])).1) := by
  unfold run
  rcases h : envs.foldl (run_step hc skip mps store) (⟨[], 0⟩, []) with ⟨a, b⟩
  rfl

theorem run_isolation_core (hc skip : Bool) (mps : Nat) (store : Store)
    (pre post : List SourceEnv) (env : SourceEnv) (rec : SourceRun)
    (hpost : env.url ∉ post.map SourceEnv.url)
    (hout : env_outcome hc skip mps store env = rec)
    (hfail : rec.ok = false)
    (hfresh : fresh_of hc skip mps store env = []) :
    alist_lookup (run hc skip mps store (pre ++ env :: post)).2.sources env.url = some rec ∧
    (run hc skip mps store (pre ++ env :: post)).1 = (run hc skip mps store (pre ++ post)).1 ∧
    (run hc skip mps store (pre ++ env :: post)).2.failures =
      (run hc skip mps store (pre ++ post)).2.failures + 1 := by
  rw [run_eq, run_eq]
  refine ⟨?_, ?_, ?_⟩
  · rw [List.foldl_append, List.foldl_cons]
    rw [run_foldl_lookup_of_not_mem hc skip mps store post _ _ env.url hpost]
    rw [run_step_eq, hout]
    simp only [Stats.finish_source]
    exact alist_lookup_upsert_self _ env.url _
  · rw [run_foldl_items, run_foldl_items]
    rw [List.map_append, List.map_append, List.map_cons, hfresh]
    simp
  · rw [run_foldl_failures, run_foldl_failures]
    rw [List.countP_append, List.countP_append, List.countP_cons]
    have hef : env_fails hc skip mps store env = true := by
      unfold env_fails
      rw [hout, hfail]
      rfl
    rw [hef]
    simp
    omega

/-! ## Claim C9 -/

/-- C9: per-source failure isolation.  If any fallible stage of one source's
processing (fetch, extract, truncate, seen-filter) raises, or its health
check fails, the run loop records that source's run as failed with the error
message (ok = false, count = 0) and proceeds: the run still completes, every
other source is processed exactly as it would be without the failing source,
the final item set equals the run without that source, and only the failure
counter grows by one. -/
theorem run_isolates_source_failures (hc skip : Bool) (mps : Nat) (store : Store)
    (pre post : List SourceEnv) (env : SourceEnv)
    (hpost : env.url ∉ post.map SourceEnv.url) :
    ((hc = true → env.health.1 = true) → ∀ e : String,
      source_attempt env mps store skip = .error e →
      alist_lookup (run hc skip mps store (pre ++ env :: post)).2.sources env.url =
        some { ok := false, count := 0, error := e } ∧
      (run hc skip mps store (pre ++ env :: post)).1 = (run hc skip mps store (pre ++ post)).1 ∧
      (run hc skip mps store (pre ++ env :: post)).2.failures =
        (run hc skip mps store (pre ++ post)).2.failures + 1) ∧
    (hc = true → env.health.1 = false →
      alist_lookup (run hc skip mps store (pre ++ env :: post)).2.sources env.url =
        some { ok := false, count := 0, error := env.health.2 } ∧
      (run hc skip mps store (pre ++ env :: post)).1 = (run hc skip mps store (pre ++ post)).1 ∧
      (run hc skip mps store (pre ++ env :: post)).2.failures =
        (run hc skip mps store (pre ++ post)).2.failures + 1) := by
  constructor
  · intro hhc e herr
    have hcond : (hc && !env.health.1) = false := by
      cases hc
      · rfl
      · rw [hhc rfl]
        rfl
    have hout : env_outcome hc skip mps store env = { ok := false, count := 0, error := e } := by
      unfold env_outcome
      rw [hcond, if_neg Bool.false_ne_true, herr]
    have hfresh : fresh_of hc skip mps store env = [] := by
      unfold fresh_of
      rw [hcond, if_neg Bool.false_ne_true, herr]
    exact run_isolation_core hc skip mps store pre post env _ hpost hout rfl hfresh
  · intro hhc hh
    have hcond : (hc && !env.health.1) = true := by
      rw [hhc, hh]
      rfl
    have hout : env_outcome hc skip mps store env =
        { ok := false, count := 0, error := env.health.2 } := by
      unfold env_outcome
      rw [hcond, if_pos rfl]
    have hfresh : fresh_of hc skip mps store env = [] := by
      unfold fresh_of
      rw [hcond, if_pos rfl]
    exact run_isolation_core hc skip mps store pre post env _ hpost hout rfl hfresh

/-- Witness for C9: a three-source run whose middle source's fetch raises. -/
theorem run_isolates_source_failures_witness :
    alist_lookup
        (run true false 5 []
          [{ url := "https://a.example/", health := (true, "ok"), fetched := .ok "<html>aaa</html>",
             parsed := fun _ => .ok [] },
           { url := "https://b.example/", health := (true, "ok"), fetched := .error "boom",
             parsed := fun _ => .ok [] },
           { url := "https://c.example/", health := (true, "ok"), fetched := .ok "<html>ccc</html>",
             parsed := fun _ => .ok [] }]).2.sources
        "https://b.example/" =
      some { ok := false, count := 0, error := "boom" } ∧
    (run true false 5 []
        [{ url := "https://a.example/", health := (true, "ok"), fetched := .ok "<html>aaa</html>",
           parsed := fun _ => .ok [] },
         { url := "https://b.example/", health := (true, "ok"), fetched := .error "boom",
           parsed := fun _ => .ok [] },
         { url := "https://c.example/", health := (true, "ok"), fetched := .ok "<html>ccc</html>",
           parsed := fun _ => .ok [] }]).1 =
      (run true false 5 []
        [{ url := "https://a.example/", health := (true, "ok"), fetched := .ok "<html>aaa</html>",
           parsed := fun _ => .ok [] },
         { url := "https://c.example/", health := (true, "ok"), fetched := .ok "<html>ccc</html>",
           parsed := fun _ => .ok [] }]).1 ∧
    (run true false 5 []
        [{ url := "https://a.example/", health := (true, "ok"), fetched := .ok "<html>aaa</html>",
           parsed := fun _ => .ok [] },
         { url := "https://b.example/", health := (true, "ok"), fetched := .error "boom",
           parsed := fun _ => .ok [] },
         { url := "https://c.example/", health := (true, "ok"), fetched := .ok "<html>ccc</html>",
           parsed := fun _ => .ok [] }]).2.failures =
      (run true false 5 []
        [{ url := "https://a.example/", health := (true, "ok"), fetched := .ok "<html>aaa</html>",
           parsed := fun _ => .ok [] },
         { url := "https://c.example/", health := (true, "ok"), fetched := .ok "<html>ccc</html>",
           parsed := fun _ => .ok [] }]).2.failures + 1 :=
  (run_isolates_source_failures true false 5 []
    [{ url := "https://a.example/", health := (true, "ok"), fetched := .ok "<html>aaa</html>",
       parsed := fun _ => .ok [] }]
    [{ url := "https://c.example/", health := (true, "ok"), fetched := .ok "<html>ccc</html>",
       parsed := fun _ => .ok [] }]
    { url := "https://b.example/", health := (true, "ok"), fetched := .error "boom",
      parsed := fun _ => .ok [] }
    (by decide)).1 (fun _ => rfl) "boom" rfl

/-! ## Claim C10: helper lemmas -/

theorem take_length_append {α : Type} (l₁ l₂ : List α) : (l₁ ++ l₂).take l₁.length = l₁ := by
  induction l₁ with
  | nil => rfl
  | cons a l ih => simp [List.take_succ_cons, ih]

theorem drop_length_append {α : Type} (l₁ l₂ : List α) : (l₁ ++ l₂).drop l₁.length = l₂ := by
  induction l₁ with
  | nil => rfl
  | cons a l ih => simp [List.drop_succ_cons, ih]

theorem take_append_eq {α : Type} (l₁ l₂ : List α) (n : Nat) (h : l₁.length = n) :
    (l₁ ++ l₂).take n = l₁ := by
  subst h
  exact take_length_append l₁ l₂

theorem drop_append_eq {α : Type} (l₁ l₂ : List α) (n : Nat) (h : l₁.length = n) :
    (l₁ ++ l₂).drop n = l₂ := by
  subst h
  exact drop_length_append l₁ l₂

theorem segment_new_lines_length (items : List Item) (s e : Int) (h : s ≤ e) :
    (segment_new_lines items s e).length = (e - s + 1).toNat := by
  unfold segment_new_lines
  simp only [List.length_append, List.length_map, List.length_take, List.length_replicate]
  have hmax : max 1 (e - s + 1) = e - s + 1 := by omega
  rw [hmax]
  have hmin : min (e - s + 1).toNat items.length ≤ (e - s + 1).toNat := Nat.min_le_left _ _
  omega

/-! ## Claim C10 -/

/-- C10: frame property of the segment updater.  For an in-bounds 1-indexed
inclusive range, `update_markdown_segment` replaces the addressed lines with
exactly `end_line - start_line + 1` lines (rendered item lines, truncated or
placeholder-padded), so the line count is preserved, every line before
`start_line` and after `end_line` is unchanged, and the addressed range holds
exactly the computed replacement lines. -/
theorem update_segment_frame (doc : List String) (s e : Int) (items : List Item)
    (h1 : 1 ≤ s) (h2 : s ≤ e) (h3 : e ≤ (doc.length : Int)) :
    (update_markdown_segment doc s e items).length = doc.length ∧
    (update_markdown_segment doc s e items).take (s - 1).toNat = doc.take (s - 1).toNat ∧
    (update_markdown_segment doc s e items).drop e.toNat = doc.drop e.toNat ∧
    ((update_markdown_segment doc s e items).drop (s - 1).toNat).take (e - s + 1).toNat =
      segment_new_lines items s e ∧
    (segment_new_lines items s e).length = (e - s + 1).toNat := by
  have hlen := segment_new_lines_length items s e h2
  have hr : update_markdown_segment doc s e items =
      doc.take (s - 1).toNat ++ segment_new_lines items s e ++ doc.drop e.toNat := by
    unfold update_markdown_segment pySliceAssign pySliceIdx
    have h4 : ¬ s - 1 < 0 := by omega
    have h5 : ¬ e < 0 := by omega
    rw [if_neg h4, if_neg h5]
    have hlo : min (s - 1).toNat doc.length = (s - 1).toNat := by omega
    have hhi : min e.toNat doc.length = e.toNat := by omega
    have hmx : max (s - 1).toNat e.toNat = e.toNat := by omega
    simp only [hlo, hhi, hmx]
  have hA : (doc.take (s - 1).toNat).length = (s - 1).toNat := by
    rw [List.length_take]
    omega
  have hAB : (doc.take (s - 1).toNat ++ segment_new_lines items s e).length = e.toNat := by
    rw [List.length_append, hA, hlen]
    omega
  refine ⟨?_, ?_, ?_, ?_, hlen⟩
  · rw [hr]
    simp only [List.length_append, List.length_take, List.length_drop, hlen]
    omega
  · rw [hr, List.append_assoc]
    exact take_append_eq _ _ _ hA
  · rw [hr]
    exact drop_append_eq _ _ _ hAB
  · rw [hr, List.append_assoc, drop_append_eq _ _ _ hA, take_append_eq _ _ _ hlen]

/-- Witness for C10: replacing lines 2-3 of a three-line document with one
rendered item line and one placeholder line. -/
theorem update_segment_frame_witness :
    (update_markdown_segment ["x", "y", "z"] 2 3
        [{ title := "T", url := "https://t.example/", source := "s", summary := "" }]).length =
      (["x", "y", "z"] : List String).length ∧
    (update_markdown_segment ["x", "y", "z"] 2 3
        [{ title := "T", url := "https://t.example/", source := "s", summary := "" }]).take
        ((2 : Int) - 1).toNat =
      (["x", "y", "z"] : List String).take ((2 : Int) - 1).toNat ∧
    (update_markdown_segment ["x", "y", "z"] 2 3
        [{ title := "T", url := "https://t.example/", source := "s", summary := "" }]).drop
        (3 : Int).toNat =
      (["x", "y", "z"] : List String).drop (3 : Int).toNat ∧
    ((update_markdown_segment ["x", "y", "z"] 2 3
        [{ title := "T", url := "https://t.example/", source := "s", summary := "" }]).drop
        ((2 : Int) - 1).toNat).take ((3 : Int) - 2 + 1).toNat =
      segment_new_lines [{ title := "T", url := "https://t.example/", source := "s", summary := "" }] 2 3 ∧
    (segment_new_lines [{ title := "T", url := "https://t.example/", source := "s", summary := "" }] 2 3).length =
      ((3 : Int) - 2 + 1).toNat :=
  update_segment_frame ["x", "y", "z"] 2 3
    [{ title := "T", url := "https://t.example/", source := "s", summary := "" }]
    (by decide) (by decide) (by decide)
